import Mathlib

/-!
# Verification of the esp_https_ota update engine specification

The repository exposes the HTTPS OTA update component through
`components/esp_https_ota/include/esp_https_ota.h`: a begin / perform (step) /
finish / abort lifecycle over an opaque session handle, plus
`esp_https_ota_get_img_desc` and `esp_https_ota_is_complete_data_received`.
The implementation file is not part of the source tree given here, so the
behaviour of each operation is modelled from the specification of the OTA
controller state machine, the stream reader, the decryption stage and the
flash writer, keeping the names the header declares.

Machine integers never overflow in what we model (byte counts, offsets), so
they are embedded as `Nat`.
-/

namespace EspOta

/-- Modelled from the spec: the error taxonomy of the OTA engine
(`InvalidArgument`, `AlreadyInProgress`, `ConnectionFailed`, `TransferError`,
`ImageValidationFailed`, `UnsupportedTarget`, `DecryptionFailed`,
`FlashTimeout`, `FlashOpFailed`, `InvalidState`, `OutOfMemory`). -/
inductive OtaErr where
  | InvalidArgument
  | AlreadyInProgress
  | ConnectionFailed
  | TransferError
  | ImageValidationFailed
  | UnsupportedTarget
  | DecryptionFailed
  | FlashTimeout
  | FlashOpFailed
  | InvalidState
  | OutOfMemory
  deriving DecidableEq, Repr

/-- Modelled from the spec: controller states
`INIT → CONNECTED → HEADER_VALIDATED → RECEIVING → COMPLETE`, with `ABORTED`
and `FAILED` reachable from any non-terminal state.  A successful `finish`
releases the session; we record that released condition as `FINISHED`. -/
inductive OtaState where
  | INIT
  | CONNECTED
  | HEADER_VALIDATED
  | RECEIVING
  | COMPLETE
  | FINISHED
  | ABORTED
  | FAILED
  deriving DecidableEq, Repr

/-- Modelled from the spec: result signal of a successful `step`:
`Continue` (more data expected) or `Done` (all expected bytes received). -/
inductive StepOk where
  | Continue
  | Done
  deriving DecidableEq, Repr

/-- Modelled from the spec: outcome of the one bounded network read a `step`
call performs: a chunk of bytes, end of stream, or a transport error. -/
inductive ReadResult where
  | chunk (data : List Nat)
  | eof
  | err
  deriving DecidableEq, Repr

/-- Modelled from the spec: the fixed-layout image header fields that the
header parser validates: magic/identity marker, target chip identity,
segment count, and the embedded app-descriptor payload (abstracted to one
field). -/
structure ImageHeader where
  magic : Nat
  chip : Nat
  segCount : Nat
  descVersion : Nat
  deriving DecidableEq, Repr

/-- Modelled from the spec: combined length of the fixed header plus the
app-descriptor region consumed from the front of the byte sequence.  The
exact byte count is an abstraction parameter of the model. -/
def HEADER_LEN : Nat := 24

/-- Modelled from the spec: the magic/identity marker a valid image starts
with. -/
def MAGIC : Nat := 233

/-- Modelled from the spec: structural segment-count bound checked by the
header parser. -/
def segOk (n : Nat) : Bool := decide (1 ≤ n) && decide (n ≤ 16)

/-- Modelled from the spec: decode the fixed-layout header fields from the
first `HEADER_LEN` buffered plaintext bytes. -/
def mkHeader (bytes : List Nat) : ImageHeader :=
  { magic := bytes.getD 0 0
    chip := bytes.getD 1 0
    segCount := bytes.getD 2 0
    descVersion := bytes.getD 3 0 }

/-- Modelled from the spec: full header validation: magic marker, structural
segment bounds, and chip-identity match with the running device. -/
def headerOk (chip : Nat) (hd : ImageHeader) : Bool :=
  (hd.magic == MAGIC) && segOk hd.segCount && (hd.chip == chip)

/-- Modelled from the spec: the optional decryption stage, an injected
transform from a ciphertext chunk to a plaintext chunk that may fail;
`none` means decryption is disabled. -/
abbrev DecryptCb := Option (List Nat → Option (List Nat))

/-- Modelled from the spec: apply the decryption stage to one chunk;
pass-through when disabled. -/
def applyDecrypt (d : DecryptCb) (data : List Nat) : Option (List Nat) :=
  match d with
  | none => some data
  | some f => f data

/-- Modelled from the spec: the `UpdateSession` (the OTA handle): current
state, header accumulation buffer, cumulative network bytes received,
plaintext bytes written, declared total image size (`none` when the transport
uses unbounded chunked transfer), cached parsed header/descriptor,
end-of-stream flag, target region identifier, and transport bookkeeping
(open flag plus close/free counters used to observe double-close and
double-free). -/
structure Session where
  state : OtaState
  buf : List Nat
  bytesReceived : Nat
  written : Nat
  declaredTotal : Option Nat
  headerParsed : Bool
  desc : Option ImageHeader
  eofSeen : Bool
  target : Nat
  transportOpen : Bool
  closes : Nat
  frees : Nat
  deriving DecidableEq, Repr

/-- Modelled from the spec: process-wide observable state: the single-flight
session flag, the boot-target region, and the log of flash write calls
(offset, length) issued to the target region. -/
structure World where
  active : Bool
  bootTarget : Nat
  flashLog : List (Nat × Nat)
  deriving DecidableEq, Repr

/-- Modelled from the spec: the configuration facts `begin` validates:
transport configuration present, blocking-mode requirement (`isAsync` must be
false), and a resolvable, writable, large-enough target region. -/
structure OtaConfig where
  httpConfigPresent : Bool
  isAsync : Bool
  regionOk : Bool
  deriving DecidableEq, Repr

/-- Modelled from the spec: a configuration is consistent when the transport
config is present, blocking semantics are requested, and the target region is
resolvable. -/
def configValid (c : OtaConfig) : Bool :=
  c.httpConfigPresent && !c.isAsync && c.regionOk

/-- Modelled from the spec: the freshly connected session produced by a
successful `begin`. -/
def initSession (target : Nat) (total : Option Nat) : Session :=
  { state := .CONNECTED
    buf := []
    bytesReceived := 0
    written := 0
    declaredTotal := total
    headerParsed := false
    desc := none
    eofSeen := false
    target := target
    transportOpen := true
    closes := 0
    frees := 0 }

/-- Modelled from the spec: a convenient initial process state with no active
session, boot target region `0`, and an empty flash-write log. -/
def initWorld : World :=
  { active := false, bootTarget := 0, flashLog := [] }

/-- Modelled from the spec: `esp_https_ota_begin` validates the configuration
(`InvalidArgument` on inconsistency, including a non-blocking transport),
enforces the process-wide single-flight rule (`AlreadyInProgress`), opens the
transport synchronously (`ConnectionFailed` when it cannot be established),
and on success hands out a connected session and marks the process busy.
In case of error the output handle is explicitly `none`. -/
def esp_https_ota_begin (c : OtaConfig) (canConnect : Bool) (target : Nat)
    (total : Option Nat) (w : World) : Except OtaErr Unit × Option Session × World :=
  if configValid c = false then (.error .InvalidArgument, none, w)
  else if w.active then (.error .AlreadyInProgress, none, w)
  else if canConnect = false then (.error .ConnectionFailed, none, w)
  else (.ok (), some (initSession target total), { w with active := true })

/-- Modelled from the spec: mark a session failed (terminal error during
`step`; the caller releases it with `abort`). -/
def failS (s : Session) : Session := { s with state := .FAILED }

/-- Modelled from the spec: completeness by byte count: all declared bytes
have been received (never true for unknown-length transfers, which finish
only at end of stream). -/
def completeByCount (s : Session) : Bool :=
  match s.declaredTotal with
  | some t => decide (t ≤ s.bytesReceived)
  | none => false

/-- Modelled from the spec: `esp_https_ota_is_complete_data_received` checks
whether the complete image data was received: all declared bytes when the
total is known, end-of-stream otherwise. -/
def esp_https_ota_is_complete_data_received (s : Session) : Bool :=
  match s.declaredTotal with
  | some t => decide (t ≤ s.bytesReceived)
  | none => s.eofSeen

/-- Modelled from the spec: after a chunk was consumed, report `Done` and move
to `COMPLETE` when all declared bytes are in, `Continue` otherwise. -/
def finishChunk (s : Session) (w : World) : Except OtaErr StepOk × Session × World :=
  if completeByCount s then (.ok .Done, { s with state := .COMPLETE }, w)
  else (.ok .Continue, s, w)

/-- Modelled from the spec: `esp_https_ota_perform`, the resumable unit of
work (`step`).  Each call consumes the outcome of exactly one bounded network
read.  From `CONNECTED` it routes the chunk through the decryption stage,
accumulates plaintext across short reads until the fixed header plus
app-descriptor region is buffered, validates magic, segment bounds and chip
identity (failing terminally with `ImageValidationFailed` or
`UnsupportedTarget` before any flash write), and only then writes the
buffered bytes and enters `RECEIVING`.  From `RECEIVING` it decrypts and
writes each chunk, advancing the cursor; end of stream completes the
transfer (or is a `TransferError` when declared bytes are missing).
Decryption failure is terminal (`DecryptionFailed`) and writes nothing. -/
def esp_https_ota_perform (d : DecryptCb) (chip : Nat) (s : Session) (w : World)
    (r : ReadResult) : Except OtaErr StepOk × Session × World :=
  match s.state with
  | .CONNECTED =>
    match r with
    | .chunk data =>
      match applyDecrypt d data with
      | none => (.error .DecryptionFailed, failS s, w)
      | some pt =>
        let buf := s.buf ++ pt
        let s1 := { s with buf := buf, bytesReceived := s.bytesReceived + data.length }
        if buf.length < HEADER_LEN then
          if completeByCount s1 then (.error .ImageValidationFailed, failS s1, w)
          else (.ok .Continue, s1, w)
        else
          let hdr := mkHeader buf
          if hdr.magic = MAGIC ∧ segOk hdr.segCount = true then
            if hdr.chip = chip then
              let w1 := { w with flashLog := w.flashLog ++ [(s.written, buf.length)] }
              let s2 := { s1 with
                          state := .RECEIVING
                          headerParsed := true
                          desc := some hdr
                          written := s.written + buf.length
                          buf := [] }
              finishChunk s2 w1
            else (.error .UnsupportedTarget, failS s1, w)
          else (.error .ImageValidationFailed, failS s1, w)
    | .eof => (.error .TransferError, failS s, w)
    | .err => (.error .TransferError, failS s, w)
  | .RECEIVING =>
    match r with
    | .chunk data =>
      match applyDecrypt d data with
      | none => (.error .DecryptionFailed, failS s, w)
      | some pt =>
        let w1 := { w with flashLog := w.flashLog ++ [(s.written, pt.length)] }
        let s1 := { s with
                    bytesReceived := s.bytesReceived + data.length
                    written := s.written + pt.length }
        finishChunk s1 w1
    | .eof =>
      match s.declaredTotal with
      | some t =>
        if t ≤ s.bytesReceived then
          (.ok .Done, { s with state := .COMPLETE, eofSeen := true }, w)
        else (.error .TransferError, failS { s with eofSeen := true }, w)
      | none => (.ok .Done, { s with state := .COMPLETE, eofSeen := true }, w)
    | .err => (.error .TransferError, failS s, w)
  | .COMPLETE => (.ok .Done, s, w)
  | _ => (.error .InvalidState, s, w)

/-- Modelled from the spec: the commit path of `finish`: switch the boot
target to the session's target region, close the transport, release the
session. -/
def commitFinish (s : Session) (w : World) : Except OtaErr Unit × Session × World :=
  (.ok (), { s with
             state := .FINISHED
             transportOpen := false
             closes := s.closes + 1
             frees := s.frees + 1 },
   { w with bootTarget := s.target, active := false })

/-- Modelled from the spec: `esp_https_ota_finish` is only valid from
`RECEIVING`/`COMPLETE` after all expected bytes are written (`InvalidState`
before full delivery), performs final size/identity verification
(`ImageValidationFailed` on mismatch, with commit skipped), and only on
success commits the new boot target, closes the transport and releases the
session.  After a successful `finish` or an `abort` it returns
`InvalidState`. -/
def esp_https_ota_finish (s : Session) (w : World) :
    Except OtaErr Unit × Session × World :=
  match s.state with
  | .RECEIVING | .COMPLETE =>
    match s.declaredTotal with
    | some t =>
      if s.bytesReceived < t then (.error .InvalidState, s, w)
      else if t < s.bytesReceived then (.error .ImageValidationFailed, s, w)
      else if s.headerParsed then commitFinish s w
      else (.error .ImageValidationFailed, s, w)
    | none =>
      if s.eofSeen = false then (.error .InvalidState, s, w)
      else if s.headerParsed then commitFinish s w
      else (.error .ImageValidationFailed, s, w)
  | _ => (.error .InvalidState, s, w)

/-- Modelled from the spec: `esp_https_ota_abort` is valid from any
non-terminal state: it closes the transport and releases the session without
touching the boot target.  Called again after termination (its own success or
a successful `finish`) it returns `InvalidState` and performs no second close
or free. -/
def esp_https_ota_abort (s : Session) (w : World) :
    Except OtaErr Unit × Session × World :=
  match s.state with
  | .FINISHED | .ABORTED => (.error .InvalidState, s, w)
  | _ => (.ok (), { s with
                    state := .ABORTED
                    transportOpen := false
                    closes := s.closes + 1
                    frees := s.frees + 1 },
          { w with active := false })

/-- Modelled from the spec: `esp_https_ota_get_img_desc` reads the app
descriptor: `InvalidState` before `begin` (no data read yet) and in terminal
states; the cached descriptor once header parsing has occurred; and from
`CONNECTED`, an explicit pre-parse path that decrypts and buffers the header
read and parses the descriptor before body streaming starts. -/
def esp_https_ota_get_img_desc (d : DecryptCb) (s : Session) (r : ReadResult) :
    Except OtaErr ImageHeader × Session :=
  match s.state with
  | .INIT => (.error .InvalidState, s)
  | .FINISHED | .ABORTED | .FAILED => (.error .InvalidState, s)
  | .CONNECTED =>
    match s.desc with
    | some hd => (.ok hd, s)
    | none =>
      match r with
      | .chunk data =>
        match applyDecrypt d data with
        | none => (.error .DecryptionFailed, failS s)
        | some pt =>
          let buf := s.buf ++ pt
          if HEADER_LEN ≤ buf.length then
            let hdr := mkHeader buf
            (.ok hdr, { s with
                        buf := buf
                        bytesReceived := s.bytesReceived + data.length
                        headerParsed := true
                        desc := some hdr })
          else (.error .ImageValidationFailed,
                { s with buf := buf, bytesReceived := s.bytesReceived + data.length })
      | .eof => (.error .TransferError, s)
      | .err => (.error .TransferError, s)
  | .HEADER_VALIDATED | .RECEIVING | .COMPLETE =>
    match s.desc with
    | some hd => (.ok hd, s)
    | none => (.error .InvalidState, s)

/-- Modelled from the spec: one network outcome per chunk boundary in ranged
mode: a clean full-chunk delivery, a mid-chunk drop followed by the single
allowed reconnect (which re-requests from the last fully-consumed offset,
discarding the `received` partial bytes), or a drop whose single reconnect
also drops. -/
inductive NetEvent where
  | ok
  | dropThenOk (received : Nat)
  | dropThenDrop
  deriving DecidableEq, Repr

/-- Modelled from the spec: the byte range `[off, off+len)` of the image as
served by a ranged request. -/
def fetchRange (data : List Nat) (off len : Nat) : List Nat :=
  (data.drop off).take len

/-- Modelled from the spec: one ranged read at a chunk boundary.  The request
size is capped at the configured maximum.  On a mid-chunk drop the partial
bytes are discarded and exactly one reconnect re-issues the range request
starting at the last fully-consumed offset `consumed` — not at the last byte
received — so the delivered chunk is identical to an undropped one.  A second
drop on the same chunk boundary is a terminal `TransferError`. -/
def readerStep (data : List Nat) (cap consumed : Nat) : NetEvent → Except OtaErr (List Nat)
  | .ok => .ok (fetchRange data consumed (min cap (data.length - consumed)))
  | .dropThenOk _ => .ok (fetchRange data consumed (min cap (data.length - consumed)))
  | .dropThenDrop => .error .TransferError

/-- Modelled from the spec: drive the ranged stream reader over a schedule of
per-chunk network outcomes, concatenating the delivered chunks; the run
succeeds only when the whole image has been consumed. -/
def readerRun (data : List Nat) (cap : Nat) : List NetEvent → Nat → Except OtaErr (List Nat)
  | [], consumed => if consumed = data.length then .ok [] else .error .TransferError
  | ev :: evs, consumed =>
    match readerStep data cap consumed ev with
    | .error e => .error e
    | .ok bytes =>
      match readerRun data cap evs (consumed + bytes.length) with
      | .error e => .error e
      | .ok rest => .ok (bytes ++ rest)

/-! ## Theorems -/

/-- C1: for every session whose declared total image size is known, `finish`
succeeds only if the number of bytes received equals the declared total;
whenever fewer bytes than the declared total have been received, `finish`
returns `InvalidState` or `ImageValidationFailed` and never success. -/
theorem finish_requires_full_delivery (s : Session) (w : World) (t : Nat)
    (ht : s.declaredTotal = some t) :
    ((esp_https_ota_finish s w).1 = .ok () → s.bytesReceived = t)
    ∧ (s.bytesReceived < t →
        (esp_https_ota_finish s w).1 = .error .InvalidState ∨
        (esp_https_ota_finish s w).1 = .error .ImageValidationFailed) := by
  obtain ⟨st, buf, br, wr, dt, hp, dsc, eo, tg, tro, cl, fr⟩ := s
  simp only at ht
  subst ht
  cases st <;>
    simp only [esp_https_ota_finish, commitFinish] <;>
    (try split_ifs) <;>
    (try simp_all) <;>
    (try omega)

/-- C1 witness: a `RECEIVING` session that declared 100 bytes but received
only 60 cannot finish successfully. -/
theorem finish_requires_full_delivery_witness :
    (esp_https_ota_finish
        { initSession 0 (some 100) with state := .RECEIVING, bytesReceived := 60 }
        initWorld).1 = .error .InvalidState ∨
    (esp_https_ota_finish
        { initSession 0 (some 100) with state := .RECEIVING, bytesReceived := 60 }
        initWorld).1 = .error .ImageValidationFailed :=
  (finish_requires_full_delivery
      { initSession 0 (some 100) with state := .RECEIVING, bytesReceived := 60 }
      initWorld 100 rfl).2 (by decide)

/-- Master case analysis of `esp_https_ota_finish`: either it succeeds, lands
in the released terminal state, commits the session's target region as boot
target and clears the single-flight flag, starting from `RECEIVING` or
`COMPLETE`; or it fails and leaves both the session and the process state
completely unchanged. -/
theorem finish_spec_cases (s : Session) (w : World) :
    ((esp_https_ota_finish s w).1 = .ok ()
      ∧ (esp_https_ota_finish s w).2.1.state = .FINISHED
      ∧ (esp_https_ota_finish s w).2.1.closes = s.closes + 1
      ∧ (esp_https_ota_finish s w).2.1.frees = s.frees + 1
      ∧ (esp_https_ota_finish s w).2.2 =
          { w with bootTarget := s.target, active := false }
      ∧ (s.state = .RECEIVING ∨ s.state = .COMPLETE))
    ∨ ((esp_https_ota_finish s w).1 ≠ .ok ()
      ∧ (esp_https_ota_finish s w).2.1 = s
      ∧ (esp_https_ota_finish s w).2.2 = w) := by
  obtain ⟨st, buf, br, wr, dt, hp, dsc, eo, tg, tro, cl, fr⟩ := s
  cases st <;>
    simp only [esp_https_ota_finish, commitFinish] <;>
    (try cases dt) <;>
    (try dsimp only) <;>
    (try split_ifs) <;>
    simp_all

/-- Master case analysis of `esp_https_ota_abort`: called on a terminated
session it returns `InvalidState` and changes nothing; from any non-terminal
state it succeeds, lands in `ABORTED`, closes and frees exactly once, clears
the single-flight flag and leaves the boot target untouched. -/
theorem abort_spec_cases (s : Session) (w : World) :
    ((s.state = .FINISHED ∨ s.state = .ABORTED)
      ∧ esp_https_ota_abort s w = (.error .InvalidState, s, w))
    ∨ (¬(s.state = .FINISHED ∨ s.state = .ABORTED)
      ∧ (esp_https_ota_abort s w).1 = .ok ()
      ∧ (esp_https_ota_abort s w).2.1.state = .ABORTED
      ∧ (esp_https_ota_abort s w).2.1.closes = s.closes + 1
      ∧ (esp_https_ota_abort s w).2.1.frees = s.frees + 1
      ∧ (esp_https_ota_abort s w).2.2 = { w with active := false }) := by
  obtain ⟨st, buf, br, wr, dt, hp, dsc, eo, tg, tro, cl, fr⟩ := s
  cases st <;> simp [esp_https_ota_abort]

/-- C3: if `finish` fails its final checks the process state — in particular
the boot target — is completely untouched (commit is skipped), and `abort`
never changes the boot target and, from any non-terminal state, succeeds and
releases the session, so partially written flash content is never referenced
by the boot target. -/
theorem failed_finish_abort_preserve_boot_target (s : Session) (w : World) :
    (∀ e : OtaErr, (esp_https_ota_finish s w).1 = .error e →
        (esp_https_ota_finish s w).2.2 = w)
    ∧ ((esp_https_ota_abort s w).2.2.bootTarget = w.bootTarget)
    ∧ (s.state ≠ .FINISHED → s.state ≠ .ABORTED →
        (esp_https_ota_abort s w).1 = .ok ()
        ∧ (esp_https_ota_abort s w).2.2.active = false) := by
  refine ⟨?_, ?_, ?_⟩
  · intro e he
    rcases finish_spec_cases s w with h | h
    · rw [h.1] at he; exact absurd he (by simp)
    · exact h.2.2
  · rcases abort_spec_cases s w with h | h
    · rw [h.2]
    · rw [h.2.2.2.2.2]
  · intro h1 h2
    rcases abort_spec_cases s w with h | h
    · rcases h.1 with h' | h' <;> simp_all
    · exact ⟨h.2.1, by rw [h.2.2.2.2.2]⟩

/-- C3 witness: a `finish` on an under-delivered session fails and leaves the
whole process state (boot target included) unchanged, and an `abort` of a
fresh connected session succeeds without touching the boot target. -/
theorem failed_finish_abort_preserve_boot_target_witness :
    ((esp_https_ota_finish
        { initSession 3 (some 100) with state := .RECEIVING, bytesReceived := 60 }
        initWorld).2.2 = initWorld)
    ∧ ((esp_https_ota_abort (initSession 3 (some 100)) initWorld).1 = .ok ()) := by
  constructor
  · exact (failed_finish_abort_preserve_boot_target
        { initSession 3 (some 100) with state := .RECEIVING, bytesReceived := 60 }
        initWorld).1 .InvalidState rfl
  · exact ((failed_finish_abort_preserve_boot_target
        (initSession 3 (some 100)) initWorld).2.2 (by decide) (by decide)).1

/-- C4: a successful `finish` leaves the session in the released terminal
state and a successful `abort` in the aborted terminal state, and once a
session is in either terminal state any subsequent `finish` or `abort`
returns `InvalidState`; in particular a second `abort` performs no further
transport close and no further free. -/
theorem terminal_session_rejects_finish_and_abort (s : Session) (w : World) :
    (∀ s' w', esp_https_ota_finish s w = (.ok (), s', w') → s'.state = .FINISHED)
    ∧ (∀ s' w', esp_https_ota_abort s w = (.ok (), s', w') → s'.state = .ABORTED)
    ∧ (s.state = .FINISHED ∨ s.state = .ABORTED →
        (esp_https_ota_finish s w).1 = .error .InvalidState
        ∧ (esp_https_ota_abort s w).1 = .error .InvalidState
        ∧ (esp_https_ota_abort s w).2.1.closes = s.closes
        ∧ (esp_https_ota_abort s w).2.1.frees = s.frees) := by
  refine ⟨?_, ?_, ?_⟩
  · intro s' w' h
    have hs' : (esp_https_ota_finish s w).2.1 = s' := by rw [h]
    rcases finish_spec_cases s w with hc | hc
    · rw [← hs']; exact hc.2.1
    · exact absurd (by rw [h] : (esp_https_ota_finish s w).1 = .ok ()) hc.1
  · intro s' w' h
    have hs' : (esp_https_ota_abort s w).2.1 = s' := by rw [h]
    rcases abort_spec_cases s w with hc | hc
    · rw [hc.2] at h
      exact absurd (congrArg Prod.fst h) (by simp)
    · rw [← hs']; exact hc.2.2.1
  · intro hterm
    refine ⟨?_, ?_⟩
    · rcases hterm with h | h <;>
        obtain ⟨st, buf, br, wr, dt, hp, dsc, eo, tg, tro, cl, fr⟩ := s <;>
        simp_all [esp_https_ota_finish]
    · rcases abort_spec_cases s w with hc | hc
      · rw [hc.2]
        exact ⟨rfl, rfl, rfl⟩
      · exact absurd hterm hc.1

/-- C4 witness: aborting a connected session succeeds and lands in `ABORTED`;
calling `abort` again on the aborted session yields `InvalidState` and leaves
the close and free counters untouched. -/
theorem terminal_session_rejects_finish_and_abort_witness :
    ((esp_https_ota_abort (initSession 0 none) initWorld).2.1.state = .ABORTED)
    ∧ ((esp_https_ota_abort { initSession 0 none with state := .ABORTED, closes := 1, frees := 1 }
          initWorld).1 = .error .InvalidState)
    ∧ ((esp_https_ota_abort { initSession 0 none with state := .ABORTED, closes := 1, frees := 1 }
          initWorld).2.1.closes = 1) := by
  refine ⟨?_, ?_, ?_⟩
  · exact (terminal_session_rejects_finish_and_abort (initSession 0 none) initWorld).2.1
      (esp_https_ota_abort (initSession 0 none) initWorld).2.1
      (esp_https_ota_abort (initSession 0 none) initWorld).2.2 rfl
  · exact ((terminal_session_rejects_finish_and_abort
        { initSession 0 none with state := .ABORTED, closes := 1, frees := 1 }
        initWorld).2.2 (Or.inr rfl)).2.1
  · exact ((terminal_session_rejects_finish_and_abort
        { initSession 0 none with state := .ABORTED, closes := 1, frees := 1 }
        initWorld).2.2 (Or.inr rfl)).2.2.1

/-- C7: `begin` fails with `InvalidArgument` on an inconsistent configuration
(in particular one requesting a non-blocking transport), with
`AlreadyInProgress` whenever another session is already active (and a `begin`
that succeeds marks the process busy, so a second `begin` fails rather than
queuing), and with `ConnectionFailed` when the transport cannot be
established. -/
theorem begin_error_cases (c : OtaConfig) (cc : Bool) (tg : Nat)
    (tot : Option Nat) (w : World) :
    (configValid c = false →
        (esp_https_ota_begin c cc tg tot w).1 = .error .InvalidArgument)
    ∧ (c.isAsync = true →
        (esp_https_ota_begin c cc tg tot w).1 = .error .InvalidArgument)
    ∧ (configValid c = true → w.active = true →
        (esp_https_ota_begin c cc tg tot w).1 = .error .AlreadyInProgress)
    ∧ (configValid c = true → w.active = false → cc = false →
        (esp_https_ota_begin c cc tg tot w).1 = .error .ConnectionFailed)
    ∧ ((esp_https_ota_begin c cc tg tot w).1 = .ok () →
        (esp_https_ota_begin c cc tg tot w).2.2.active = true) := by
  refine ⟨?_, ?_, ?_, ?_, ?_⟩ <;>
    simp only [esp_https_ota_begin, configValid] <;>
    intros <;>
    simp_all <;>
    (try split_ifs) <;>
    simp_all

/-- C7 witness: with a valid blocking configuration, a first `begin` on an
idle process succeeds and marks it busy; on a busy process `begin` fails with
`AlreadyInProgress`; an async configuration fails with `InvalidArgument`; and
a failing transport yields `ConnectionFailed`. -/
theorem begin_error_cases_witness :
    ((esp_https_ota_begin ⟨true, false, true⟩ true 1 (some 100)
        initWorld).2.2.active = true)
    ∧ ((esp_https_ota_begin ⟨true, false, true⟩ true 1 (some 100)
        { initWorld with active := true }).1 = .error .AlreadyInProgress)
    ∧ ((esp_https_ota_begin ⟨true, true, true⟩ true 1 (some 100)
        initWorld).1 = .error .InvalidArgument)
    ∧ ((esp_https_ota_begin ⟨true, false, true⟩ false 1 (some 100)
        initWorld).1 = .error .ConnectionFailed) := by
  refine ⟨?_, ?_, ?_, ?_⟩
  · exact (begin_error_cases ⟨true, false, true⟩ true 1 (some 100)
        initWorld).2.2.2.2 rfl
  · exact (begin_error_cases ⟨true, false, true⟩ true 1 (some 100)
        { initWorld with active := true }).2.2.1 rfl rfl
  · exact (begin_error_cases ⟨true, true, true⟩ true 1 (some 100)
        initWorld).2.1 rfl
  · exact (begin_error_cases ⟨true, false, true⟩ false 1 (some 100)
        initWorld).2.2.2.1 rfl rfl rfl

/-- C10: the session handle returned by `begin` is non-`none` exactly when
`begin` succeeds; every error outcome hands back an explicitly cleared
(`none`) handle. -/
theorem begin_handle_none_iff_error (c : OtaConfig) (cc : Bool) (tg : Nat)
    (tot : Option Nat) (w : World) :
    (esp_https_ota_begin c cc tg tot w).2.1 ≠ none ↔
      (esp_https_ota_begin c cc tg tot w).1 = .ok () := by
  simp only [esp_https_ota_begin]
  split_ifs <;> simp

/-- C10 witness: on a concrete failing `begin` (busy process) the handle is
`none`, and on a concrete successful `begin` it is non-`none`. -/
theorem begin_handle_none_iff_error_witness :
    ((esp_https_ota_begin ⟨true, false, true⟩ true 1 none
        { initWorld with active := true }).2.1 = none)
    ∧ ((esp_https_ota_begin ⟨true, false, true⟩ true 1 none initWorld).2.1 ≠ none) := by
  constructor
  · by_contra hne
    have h := (begin_handle_none_iff_error ⟨true, false, true⟩ true 1 none
        { initWorld with active := true }).mp hne
    exact absurd h (by simp [esp_https_ota_begin, configValid, initWorld])
  · exact (begin_handle_none_iff_error ⟨true, false, true⟩ true 1 none
        initWorld).mpr rfl

/-- C9: reading the app descriptor succeeds once header parsing has occurred
— the cached descriptor is returned in any live state — and the explicit
pre-parse path from `CONNECTED` parses and returns the descriptor before any
body data is streamed; invoked before any data has been read (session not
begun, state `INIT`) it fails with `InvalidState`. -/
theorem get_img_desc_state_contract (d : DecryptCb) (s : Session) (r : ReadResult) :
    (s.state = .INIT →
        (esp_https_ota_get_img_desc d s r).1 = .error .InvalidState)
    ∧ (∀ hd : ImageHeader, s.desc = some hd →
        (s.state = .CONNECTED ∨ s.state = .HEADER_VALIDATED ∨
         s.state = .RECEIVING ∨ s.state = .COMPLETE) →
        (esp_https_ota_get_img_desc d s r).1 = .ok hd)
    ∧ (∀ data pt : List Nat, s.state = .CONNECTED → s.desc = none →
        r = .chunk data → applyDecrypt d data = some pt →
        HEADER_LEN ≤ (s.buf ++ pt).length →
        (esp_https_ota_get_img_desc d s r).1 = .ok (mkHeader (s.buf ++ pt))) := by
  obtain ⟨st, buf, br, wr, dt, hp, dsc, eo, tg, tro, cl, fr⟩ := s
  refine ⟨?_, ?_, ?_⟩
  · intro hst
    simp only at hst
    subst hst
    rfl
  · intro hd hdsc hlive
    simp only at hdsc
    subst hdsc
    rcases hlive with h | h | h | h <;> simp only at h <;> subst h <;> rfl
  · intro data pt hst hdsc hr hdec hlen
    simp only at hst hdsc
    subst hst; subst hdsc; subst hr
    simp only [esp_https_ota_get_img_desc, hdec, hlen, if_pos]

/-- C9 witness: on a session that has not been begun the call fails with
`InvalidState`; once the descriptor is cached it is returned; and the
pre-parse path on a fresh connected session returns the parsed descriptor. -/
theorem get_img_desc_state_contract_witness :
    ((esp_https_ota_get_img_desc none
        { initSession 0 none with state := .INIT } .eof).1 = .error .InvalidState)
    ∧ ((esp_https_ota_get_img_desc none
        { initSession 0 none with state := .RECEIVING, desc := some ⟨233, 1, 2, 7⟩ }
        .eof).1 = .ok ⟨233, 1, 2, 7⟩)
    ∧ ((esp_https_ota_get_img_desc none (initSession 0 none)
        (.chunk (MAGIC :: 1 :: 2 :: 7 :: List.replicate 20 0))).1 =
          .ok (mkHeader ([] ++ (MAGIC :: 1 :: 2 :: 7 :: List.replicate 20 0)))) := by
  refine ⟨?_, ?_, ?_⟩
  · exact (get_img_desc_state_contract none
        { initSession 0 none with state := .INIT } .eof).1 rfl
  · exact (get_img_desc_state_contract none
        { initSession 0 none with state := .RECEIVING, desc := some ⟨233, 1, 2, 7⟩ }
        .eof).2.1 ⟨233, 1, 2, 7⟩ rfl (Or.inr (Or.inr (Or.inl rfl)))
  · exact (get_img_desc_state_contract none (initSession 0 none)
        (.chunk (MAGIC :: 1 :: 2 :: 7 :: List.replicate 20 0))).2.2
        (MAGIC :: 1 :: 2 :: 7 :: List.replicate 20 0)
        (MAGIC :: 1 :: 2 :: 7 :: List.replicate 20 0)
        rfl rfl rfl rfl (by decide)

/-- C5: when the decryption stage fails on the current chunk, `step` fails
with the terminal `DecryptionFailed` — the session lands in `FAILED` and the
flash-write log is untouched — and every later `step` on the failed session
is rejected without any further flash write, so neither chunk `K` nor any
later chunk is ever written. -/
theorem decryption_failure_halts_writes (d : DecryptCb) (chip : Nat)
    (s : Session) (w : World) (data : List Nat)
    (hs : s.state = .CONNECTED ∨ s.state = .RECEIVING)
    (hd : applyDecrypt d data = none) :
    (esp_https_ota_perform d chip s w (.chunk data) =
        (.error .DecryptionFailed, failS s, w))
    ∧ (∀ (s₂ : Session) (w₂ : World) (r₂ : ReadResult), s₂.state = .FAILED →
        esp_https_ota_perform d chip s₂ w₂ r₂ = (.error .InvalidState, s₂, w₂)) := by
  constructor
  · rcases hs with h | h <;>
      simp only [esp_https_ota_perform, h, hd]
  · intro s₂ w₂ r₂ h₂
    simp only [esp_https_ota_perform, h₂]

/-- C5 witness: with a decryption callback that always fails, a `step` on a
receiving session returns `DecryptionFailed`, leaves the flash log
unchanged, and the failed session rejects the next chunk. -/
theorem decryption_failure_halts_writes_witness :
    (esp_https_ota_perform (some fun _ => none) 1
        { initSession 0 (some 100) with state := .RECEIVING } initWorld
        (.chunk [1, 2, 3]) =
      (.error .DecryptionFailed,
        failS { initSession 0 (some 100) with state := .RECEIVING }, initWorld))
    ∧ (esp_https_ota_perform (some fun _ => none) 1
        (failS { initSession 0 (some 100) with state := .RECEIVING })
        initWorld (.chunk [4, 5]) =
      (.error .InvalidState,
        failS { initSession 0 (some 100) with state := .RECEIVING }, initWorld)) := by
  have h := decryption_failure_halts_writes (some fun _ => none) 1
      { initSession 0 (some 100) with state := .RECEIVING } initWorld
      [1, 2, 3] (Or.inr rfl) rfl
  exact ⟨h.1, h.2 (failS { initSession 0 (some 100) with state := .RECEIVING })
      initWorld (.chunk [4, 5]) rfl⟩

/-- Discriminate the result of a `step`: `true` exactly on success. -/
def isOkResult : Except OtaErr StepOk → Bool
  | .ok _ => true
  | .error _ => false

/-- Master case analysis of `esp_https_ota_perform` from a live streaming
state before end of stream: it either succeeds with `Done` and the session
then reports complete data, succeeds with `Continue` and the session reports
incomplete data, or fails. -/
theorem perform_result_cases (d : DecryptCb) (chip : Nat) (s : Session)
    (w : World) (r : ReadResult)
    (hs : s.state = .CONNECTED ∨ s.state = .RECEIVING)
    (he : s.eofSeen = false) :
    ((esp_https_ota_perform d chip s w r).1 = .ok .Done
      ∧ esp_https_ota_is_complete_data_received
          (esp_https_ota_perform d chip s w r).2.1 = true)
    ∨ ((esp_https_ota_perform d chip s w r).1 = .ok .Continue
      ∧ esp_https_ota_is_complete_data_received
          (esp_https_ota_perform d chip s w r).2.1 = false)
    ∨ isOkResult (esp_https_ota_perform d chip s w r).1 = false := by
  obtain ⟨st, buf, br, wr, dt, hp, dsc, eo, tg, tro, cl, fr⟩ := s
  simp only at hs he
  subst he
  rcases hs with hst | hst <;> subst hst <;> cases r
  case mk.inl.chunk data =>
    rcases hdec : applyDecrypt d data with _ | pt
    · simp [esp_https_ota_perform, hdec, isOkResult]
    · simp only [esp_https_ota_perform, hdec, finishChunk, completeByCount,
        failS] <;>
        (try cases dt) <;>
        (try dsimp only) <;>
        (try split_ifs) <;>
        simp_all [esp_https_ota_is_complete_data_received, isOkResult]
  case mk.inl.eof => simp [esp_https_ota_perform, isOkResult]
  case mk.inl.err => simp [esp_https_ota_perform, isOkResult]
  case mk.inr.chunk data =>
    rcases hdec : applyDecrypt d data with _ | pt
    · simp [esp_https_ota_perform, hdec, isOkResult]
    · simp only [esp_https_ota_perform, hdec, finishChunk, completeByCount,
        failS] <;>
        (try cases dt) <;>
        (try dsimp only) <;>
        (try split_ifs) <;>
        simp_all [esp_https_ota_is_complete_data_received, isOkResult]
  case mk.inr.eof =>
    simp only [esp_https_ota_perform, failS] <;>
      (try cases dt) <;>
      (try dsimp only) <;>
      (try split_ifs) <;>
      simp_all [esp_https_ota_is_complete_data_received, isOkResult]
  case mk.inr.err => simp [esp_https_ota_perform, isOkResult]

/-- C6: every successful `step` call — which consumes the outcome of exactly
one bounded network read — returns `Continue` or `Done`, and it returns
`Done` exactly when all expected bytes have been received (all declared
bytes for a known total, end of stream for an unknown one). -/
theorem perform_continue_or_done (d : DecryptCb) (chip : Nat) (s : Session)
    (w : World) (r : ReadResult) (p : StepOk) (s' : Session) (w' : World)
    (hs : s.state = .CONNECTED ∨ s.state = .RECEIVING)
    (he : s.eofSeen = false)
    (h : esp_https_ota_perform d chip s w r = (.ok p, s', w')) :
    (p = .Continue ∨ p = .Done)
    ∧ (p = .Done ↔ esp_https_ota_is_complete_data_received s' = true) := by
  refine ⟨by cases p <;> simp, ?_⟩
  have h1 : (esp_https_ota_perform d chip s w r).1 = .ok p := by rw [h]
  have h2 : (esp_https_ota_perform d chip s w r).2.1 = s' := by rw [h]
  rcases perform_result_cases d chip s w r hs he with hc | hc | hc
  · rw [h1] at hc
    rw [h2] at hc
    have hp : p = .Done := by simpa using hc.1
    simp [hp, hc.2]
  · rw [h1] at hc
    rw [h2] at hc
    have hp : p = .Continue := by simpa using hc.1
    constructor
    · intro hd; rw [hp] at hd; exact absurd hd (by simp)
    · intro hcomp; rw [hc.2] at hcomp; exact absurd hcomp (by simp)
  · rw [h1] at hc
    exact absurd hc (by simp [isOkResult])

/-- C6 witness: a receiving session that declared 10 bytes and gets its final
10-byte chunk returns `Done` and then reports complete data. -/
theorem perform_continue_or_done_witness :
    (StepOk.Done = .Continue ∨ StepOk.Done = .Done)
    ∧ (StepOk.Done = .Done ↔ esp_https_ota_is_complete_data_received
        (esp_https_ota_perform none 1
          { initSession 0 (some 10) with state := .RECEIVING } initWorld
          (.chunk [0, 1, 2, 3, 4, 5, 6, 7, 8, 9])).2.1 = true) :=
  perform_continue_or_done none 1
    { initSession 0 (some 10) with state := .RECEIVING } initWorld
    (.chunk [0, 1, 2, 3, 4, 5, 6, 7, 8, 9]) .Done
    (esp_https_ota_perform none 1
      { initSession 0 (some 10) with state := .RECEIVING } initWorld
      (.chunk [0, 1, 2, 3, 4, 5, 6, 7, 8, 9])).2.1
    (esp_https_ota_perform none 1
      { initSession 0 (some 10) with state := .RECEIVING } initWorld
      (.chunk [0, 1, 2, 3, 4, 5, 6, 7, 8, 9])).2.2
    (Or.inr rfl) rfl rfl

/-- Check that a session carries a cached header that passed full validation
against the device chip identity. -/
def validatedDesc (chip : Nat) (s : Session) : Bool :=
  match s.desc with
  | some hdr => headerOk chip hdr
  | none => false

/-- Master case analysis of a `step` from `CONNECTED` (validation not yet
completed): either the flash-write log is left untouched, or the step has
successfully completed header validation — the resulting session caches a
header that passes magic, segment-bound and chip-identity checks. -/
theorem perform_connected_write_cases (d : DecryptCb) (chip : Nat)
    (s : Session) (w : World) (r : ReadResult)
    (hs : s.state = .CONNECTED) :
    (esp_https_ota_perform d chip s w r).2.2.flashLog = w.flashLog
    ∨ ((esp_https_ota_perform d chip s w r).2.1.headerParsed = true
        ∧ validatedDesc chip (esp_https_ota_perform d chip s w r).2.1 = true) := by
  obtain ⟨st, buf, br, wr, dt, hp, dsc, eo, tg, tro, cl, fr⟩ := s
  simp only at hs
  subst hs
  cases r
  case chunk data =>
    rcases hdec : applyDecrypt d data with _ | pt
    · simp [esp_https_ota_perform, hdec, failS]
    · simp only [esp_https_ota_perform, hdec, finishChunk, completeByCount,
        failS] <;>
        (try cases dt) <;>
        (try dsimp only) <;>
        (try split_ifs) <;>
        simp_all [validatedDesc, headerOk, segOk]
  case eof => simp [esp_https_ota_perform, failS]
  case err => simp [esp_https_ota_perform, failS]

/-- C2: a `step` taken before validation has completed (state `CONNECTED`)
never touches the flash-write log unless that very step completed header and
app-descriptor validation successfully; and when the header's chip identity
does not match the running device, the step fails with `UnsupportedTarget`
and the flash-write log is untouched — zero write calls are issued. -/
theorem no_write_before_validation (d : DecryptCb) (chip : Nat) (s : Session)
    (w : World) (r : ReadResult) (res : Except OtaErr StepOk) (s' : Session)
    (w' : World)
    (hs : s.state = .CONNECTED)
    (h : esp_https_ota_perform d chip s w r = (res, s', w')) :
    (w'.flashLog ≠ w.flashLog →
        s'.headerParsed = true
        ∧ ∃ hdr : ImageHeader, s'.desc = some hdr ∧ headerOk chip hdr = true)
    ∧ (∀ data pt : List Nat, r = .chunk data → applyDecrypt d data = some pt →
        HEADER_LEN ≤ (s.buf ++ pt).length →
        (mkHeader (s.buf ++ pt)).magic = MAGIC →
        segOk (mkHeader (s.buf ++ pt)).segCount = true →
        (mkHeader (s.buf ++ pt)).chip ≠ chip →
        res = .error .UnsupportedTarget ∧ w'.flashLog = w.flashLog) := by
  constructor
  · intro hneq
    have h21 : (esp_https_ota_perform d chip s w r).2.1 = s' := by rw [h]
    have h22 : (esp_https_ota_perform d chip s w r).2.2 = w' := by rw [h]
    rcases perform_connected_write_cases d chip s w r hs with hc | hc
    · rw [h22] at hc
      exact absurd hc hneq
    · rw [h21] at hc
      refine ⟨hc.1, ?_⟩
      rcases hdsc : s'.desc with _ | hdr
      · have := hc.2
        rw [validatedDesc, hdsc] at this
        exact absurd this (by simp)
      · have := hc.2
        rw [validatedDesc, hdsc] at this
        exact ⟨hdr, rfl, this⟩
  · intro data pt hr hdec hlen hmagic hseg hchip
    subst hr
    have hval : esp_https_ota_perform d chip s w (.chunk data) =
        (.error .UnsupportedTarget,
          failS { s with
                  buf := s.buf ++ pt
                  bytesReceived := s.bytesReceived + data.length }, w) := by
      simp only [esp_https_ota_perform, hs, hdec]
      rw [if_neg (Nat.not_lt.mpr hlen), if_pos ⟨hmagic, hseg⟩, if_neg hchip]
    rw [hval] at h
    exact ⟨(congrArg Prod.fst h).symm,
      congrArg World.flashLog (congrArg (fun q => q.2.2) h).symm⟩

/-- C2 witness: an otherwise valid header whose chip identity `9` differs
from the running device's `1` makes the first `step` fail with
`UnsupportedTarget`, and the flash-write log stays empty. -/
theorem no_write_before_validation_witness :
    ((esp_https_ota_perform none 1 (initSession 0 (some 5000)) initWorld
        (.chunk (MAGIC :: 9 :: 2 :: List.replicate 21 0))).1 =
      .error .UnsupportedTarget)
    ∧ ((esp_https_ota_perform none 1 (initSession 0 (some 5000)) initWorld
        (.chunk (MAGIC :: 9 :: 2 :: List.replicate 21 0))).2.2.flashLog =
      initWorld.flashLog) := by
  have h := no_write_before_validation none 1 (initSession 0 (some 5000))
      initWorld (.chunk (MAGIC :: 9 :: 2 :: List.replicate 21 0))
      (esp_https_ota_perform none 1 (initSession 0 (some 5000)) initWorld
        (.chunk (MAGIC :: 9 :: 2 :: List.replicate 21 0))).1
      (esp_https_ota_perform none 1 (initSession 0 (some 5000)) initWorld
        (.chunk (MAGIC :: 9 :: 2 :: List.replicate 21 0))).2.1
      (esp_https_ota_perform none 1 (initSession 0 (some 5000)) initWorld
        (.chunk (MAGIC :: 9 :: 2 :: List.replicate 21 0))).2.2
      rfl rfl
  have h2 := h.2 (MAGIC :: 9 :: 2 :: List.replicate 21 0)
      (MAGIC :: 9 :: 2 :: List.replicate 21 0) rfl rfl (by decide) (by decide)
      (by decide) (by decide)
  exact ⟨h2.1, h2.2⟩

/-- Every successful run of the ranged stream reader delivers exactly the
image suffix that remained at its starting offset: success forces full
coverage with no duplicated and no skipped byte. -/
theorem readerRun_ok_suffix (data : List Nat) (cap : Nat) :
    ∀ (evs : List NetEvent) (c : Nat) (out : List Nat),
      readerRun data cap evs c = .ok out → out = data.drop c := by
  intro evs
  induction evs with
  | nil =>
    intro c out h
    simp only [readerRun] at h
    split_ifs at h with hc
    have hout : ([] : List Nat) = out := by simpa using h
    rw [← hout, hc, List.drop_length]
  | cons ev evs ih =>
    intro c out h
    simp only [readerRun] at h
    rcases hstep : readerStep data cap c ev with e | bytes
    · simp only [hstep] at h
      exact absurd h (by simp)
    · simp only [hstep] at h
      rcases hrec : readerRun data cap evs (c + bytes.length) with e | rest
      · simp only [hrec] at h
        exact absurd h (by simp)
      · simp only [hrec] at h
        have hout : bytes ++ rest = out := by simpa using h
        have hbytes : bytes = fetchRange data c (min cap (data.length - c)) := by
          cases ev <;> simp [readerStep] at hstep <;> exact hstep.symm
        have hblen : bytes.length = min cap (data.length - c) := by
          rw [hbytes, fetchRange, List.length_take, List.length_drop]
          exact Nat.min_eq_left (Nat.min_le_right _ _)
        have hrest : rest = data.drop (c + bytes.length) := ih _ _ hrec
        rw [← hout, hbytes, hrest, hblen, fetchRange]
        rw [← List.drop_drop]
        exact List.take_append_drop _ _

/-- C8: in ranged mode a successful transfer delivers exactly the image bytes
— no byte written twice, no byte skipped — even when connections drop
mid-chunk; the single reconnect allowed at a chunk boundary re-issues the
range request from the last fully-consumed byte offset (its delivery is
identical to an undropped read and independent of how many partial bytes had
been received), and a second drop on the same chunk boundary is a terminal
`TransferError` rather than another reconnect. -/
theorem ranged_resume_correctness (data : List Nat) (cap : Nat) :
    (∀ (evs : List NetEvent) (out : List Nat),
        readerRun data cap evs 0 = .ok out → out = data)
    ∧ (∀ c dcount : Nat,
        readerStep data cap c (.dropThenOk dcount) =
          .ok (fetchRange data c (min cap (data.length - c))))
    ∧ (∀ c : Nat, readerStep data cap c .dropThenDrop = .error .TransferError) := by
  refine ⟨?_, ?_, ?_⟩
  · intro evs out h
    have := readerRun_ok_suffix data cap evs 0 out h
    simpa using this
  · intro c dcount
    rfl
  · intro c
    rfl

/-- C8 witness: a five-byte image fetched with two-byte ranged requests,
where the second chunk drops after one byte and is re-fetched, is delivered
exactly once and completely. -/
theorem ranged_resume_correctness_witness :
    readerRun [1, 2, 3, 4, 5] 2 [.ok, .dropThenOk 1, .ok] 0 = .ok [1, 2, 3, 4, 5]
    ∧ [1, 2, 3, 4, 5] = ([1, 2, 3, 4, 5] : List Nat) :=
  ⟨rfl, (ranged_resume_correctness [1, 2, 3, 4, 5] 2).1
      [.ok, .dropThenOk 1, .ok] [1, 2, 3, 4, 5] rfl⟩

end EspOta
